import Mathlib

/-!
Verification of the lost-items CLIP ingestion pipeline
(`clip-service`: `message_converter.py`, `clip_handler_enhanced.py`,
`minio_handler.py`, `main.py`, `main_enhanced.py`).

The Python code is shallowly embedded: strings are `String`/`List Char`,
Python dictionaries are association lists of `String × PyVal`, numpy float
vectors are `List ℝ`, and the external collaborators (CLIP encoder, MinIO
object store, RabbitMQ publish) are parameters of the worker step function.
-/

namespace ClipService

/-! ## Python string primitives -/

/-- Whitespace characters stripped by Python's `str.strip()` and matched by
the regex class `\s` (restricted to the ASCII range; the theorems below that
rely on this predicate restrict their inputs to ASCII characters). -/
def isPySpace (c : Char) : Bool :=
  c = ' ' || c = '\t' || c = '\n' || c = '\r' || c = '\x0b' || c = '\x0c'

/-- Python `str.strip(chars)`: remove characters satisfying `p` from both
ends of the character list. -/
def stripL (p : Char → Bool) (l : List Char) : List Char :=
  List.rdropWhile (fun c => p c) (List.dropWhile (fun c => p c) l)

/-- Replace every maximal run of characters satisfying `p` by the single
character `r`; this is `re.sub(p+, r, ·)`.  The boolean flag records whether
the previous character belonged to a run. -/
def squeezeAux (p : Char → Bool) (r : Char) : Bool → List Char → List Char
  | _, [] => []
  | inRun, c :: rest =>
    if p c then
      if inRun then squeezeAux p r true rest
      else r :: squeezeAux p r true rest
    else c :: squeezeAux p r false rest

/-- `re.sub(p-run, r, l)` starting outside a run. -/
def squeeze (p : Char → Bool) (r : Char) (l : List Char) : List Char :=
  squeezeAux p r false l

/-- Python `str.strip()` on `String`. -/
def pyStrip (s : String) : String := ⟨stripL isPySpace s.data⟩

/-- UTF-8 byte length of a string (`len(key.encode('utf-8'))`). -/
def utf8Len (s : String) : Nat := (s.data.map Char.utf8Size).sum

/-! ## Python dictionaries -/

/-- A Python value as it occurs in the messages handled by the service:
either a string or `None`. -/
inductive PyVal where
  | str (s : String)
  | none
deriving DecidableEq

/-- A Python dictionary: an association list with at most one binding per
key (`dGet` reads the first binding, `dSet` replaces the first binding). -/
def PyDict := List (String × PyVal)

instance : DecidableEq PyDict := by
  unfold PyDict
  infer_instance

/-- Dictionary lookup: `d.get(k)` returning `Option.none` when absent. -/
def dGet (d : PyDict) (k : String) : Option PyVal :=
  (d.find? (fun p => p.1 = k)).map (fun p => p.2)

/-- Dictionary update `d[k] = v`: replace the first binding of `k`, or
append a new binding. -/
def dSet (d : PyDict) (k : String) (v : PyVal) : PyDict :=
  match d with
  | [] => [(k, v)]
  | (k', v') :: rest => if k' = k then (k, v) :: rest else (k', v') :: dSet rest k v

/-- `del d[k]` (a no-op when the key is absent, matching the guarded
`if k in d: del d[k]` in the source). -/
def dErase (d : PyDict) (k : String) : PyDict :=
  d.filter (fun p => ¬ p.1 = k)

/-- `d.setdefault(k, v)`. -/
def dSetdefault (d : PyDict) (k : String) (v : PyVal) : PyDict :=
  match dGet d k with
  | some _ => d
  | Option.none => dSet d k v

/-- Python truthiness of a lookup result: absent and `None` and `''` are
falsy, a non-empty string is truthy. -/
def truthy (v : Option PyVal) : Bool :=
  match v with
  | some (PyVal.str s) => s ≠ ""
  | _ => false

/-- `d.get(k, '')` followed by "use it as a string": yields the string when
the binding is a string, and `""` when the key is absent or bound to `None`. -/
def strGet (d : PyDict) (k : String) : String :=
  match dGet d k with
  | some (PyVal.str s) => s
  | _ => ""

/-! ## `message_converter.py` -/

/-- `MessageConverter._normalize_object_key`: strip whitespace, strip
leading/trailing `/`, replace `\` with `/`, collapse runs of `/`
(in that order, as in the source). -/
def normalizeObjectKeyL (l : List Char) : List Char :=
  squeeze (fun c => c = '/') '/'
    ((stripL (fun c => c = '/') (stripL isPySpace l)).map
      (fun c => if c = '\\' then '/' else c))

/-- `_normalize_object_key` on `String`. -/
def normalizeObjectKey (s : String) : String := ⟨normalizeObjectKeyL s.data⟩

/-- `MessageConverter._normalize_text`: `None` becomes `""`; otherwise strip
the edges, then collapse every internal whitespace run to a single space. -/
def normalizeTextL (l : List Char) : List Char :=
  squeeze isPySpace ' ' (stripL isPySpace l)

/-- `_normalize_text` on `String` (the `None` case is handled at the call
sites via `fieldNormText`). -/
def normalizeText (s : String) : String := ⟨normalizeTextL s.data⟩

/-- `self._normalize_text(message.get(k, ''))`: a missing key or a `None`
value yields `""`, a string value is normalized. -/
def fieldNormText (d : PyDict) (k : String) : String :=
  match dGet d k with
  | some (PyVal.str s) => normalizeText s
  | _ => ""

/-- `MessageConverter._extract_image_key`, with the stdlib-based URL
conversion `_url_to_object_key` (which delegates to `urllib.parse.urlparse`)
abstracted as the parameter `u2k` (`Option.none` models a failed
conversion). -/
def extract_image_key (u2k : String → Option String) (d : PyDict) : String :=
  let fromUrl : String :=
    if truthy (dGet d "image_url") then
      let url := pyStrip (strGet d "image_url")
      if url ≠ "" then
        match u2k url with
        | some k => k
        | Option.none => ""
      else ""
    else ""
  if truthy (dGet d "image_key") then
    let ik := pyStrip (strGet d "image_key")
    if ik ≠ "" then normalizeObjectKey ik else fromUrl
  else fromUrl

/-- The `', '.join(parts)` fallback for `contact_info`, built from the
truthy ones among `contact_email` and `contact_phone`. -/
def joinedContact (d : PyDict) : String :=
  let em := strGet d "contact_email"
  let ph := strGet d "contact_phone"
  String.intercalate ", "
    ((if em ≠ "" then [em] else []) ++ (if ph ≠ "" then [ph] else []))

/-- The first half of `MessageConverter.normalize_message`: image-key
resolution, legacy-field removal, text-field normalization, and the
`setdefault` calls, before the `contact_info` fallback. -/
def normCore (u2k : String → Option String) (d : PyDict) : PyDict :=
  dSetdefault
    (dSetdefault
      (dSet
        (dSet
          (dSet
            (dSet
              (dErase (dSet d "image_key" (PyVal.str (extract_image_key u2k d)))
                "image_url")
              "text" (PyVal.str (fieldNormText d "text")))
            "description" (PyVal.str (fieldNormText d "description")))
          "category" (PyVal.str (fieldNormText d "category")))
        "location" (PyVal.str (fieldNormText d "location")))
      "item_id" (PyVal.str ""))
    "date_lost" (PyVal.str "")

/-- `MessageConverter.normalize_message` (the non-exceptional path; the
`except` fallback is unreachable in the model because every step is total). -/
def normalize_message (u2k : String → Option String) (d : PyDict) : PyDict :=
  if truthy (dGet (normCore u2k d) "contact_info") then normCore u2k d
  else dSet (normCore u2k d) "contact_info"
    (PyVal.str (joinedContact (normCore u2k d)))

/-- `MessageConverter._is_valid_object_key`. -/
def is_valid_object_key (k : String) : Bool :=
  if k = "" then false
  else if k.data.any (fun c => c = '\\' || c = '\x00' || c = '\n' || c = '\r' || c = '\t') then false
  else if utf8Len k > 1024 then false
  else true

/-- `MessageConverter.validate_message`. -/
def validate_message (d : PyDict) : Bool × Option String :=
  if ¬ truthy (dGet d "item_id") then
    (false, some "Missing required field: item_id")
  else if ¬ (truthy (dGet d "text") || truthy (dGet d "description")
      || truthy (dGet d "category")) then
    (false, some "Message must contain at least one text field (text, description, or category)")
  else
    let image_key := strGet d "image_key"
    if image_key ≠ "" ∧ ¬ is_valid_object_key image_key then
      (false, some ("Invalid image_key format: " ++ image_key))
    else (true, Option.none)

/-- The record published to the output queue
(`MessageConverter.create_output_message`). -/
structure OutputRecord where
  item_id : String
  embedding : List ℝ
  title : String
  description : String
  category : String
  location : String
  date_lost : String
  image_key : String
  contact_info : String
  timestamp : String
  has_image_embedding : Bool

/-- `MessageConverter.create_output_message`. -/
def create_output_message (input_message : PyDict) (embedding : List ℝ)
    (has_image_embedding : Bool) (timestamp : String) : OutputRecord :=
  { item_id := strGet input_message "item_id"
    embedding := embedding
    title := strGet input_message "text"
    description := strGet input_message "description"
    category := strGet input_message "category"
    location := strGet input_message "location"
    date_lost := strGet input_message "date_lost"
    image_key := strGet input_message "image_key"
    contact_info := strGet input_message "contact_info"
    timestamp := timestamp
    has_image_embedding := has_image_embedding }

/-! ## `clip_handler_enhanced.py`: vector arithmetic and fusion -/

/-- Sum of squares of a vector; the square of its Euclidean norm. -/
def sumSq (v : List ℝ) : ℝ := (v.map (fun x => x * x)).sum

/-- `np.linalg.norm(v)`. -/
noncomputable def l2norm (v : List ℝ) : ℝ := Real.sqrt (sumSq v)

/-- `v / np.linalg.norm(v)`, element-wise. -/
noncomputable def normalizeVec (v : List ℝ) : List ℝ :=
  v.map (fun x => x / l2norm v)

/-- `text_weight * text_embedding + image_weight * image_embedding`
with `image_weight = 1.0 - text_weight`, element-wise. -/
def weightedSum (w : ℝ) (t i : List ℝ) : List ℝ :=
  List.zipWith (fun a b => w * a + (1 - w) * b) t i

/-- `CLIPHandler.combine_embeddings` (`clip_handler_enhanced.py`):
weights outside `[0, 1]` raise `ValueError`; otherwise the weighted
combination is re-normalized to unit length. -/
noncomputable def combine_embeddings (t i : List ℝ) (w : ℝ) :
    Except String (List ℝ) :=
  if 0 ≤ w ∧ w ≤ 1 then Except.ok (normalizeVec (weightedSum w t i))
  else Except.error "text_weight must be between 0 and 1"

/-- `TextPreprocessor.normalize_text`: lowercase, collapse whitespace runs,
strip the edges. -/
def tpNormalizeText (s : String) : String :=
  ⟨stripL isPySpace (squeeze isPySpace ' ' ((s.map Char.toLower).data))⟩

/-- `TextPreprocessor.create_enhanced_text`. -/
def create_enhanced_text (title description category location : String) : String :=
  let parts : List String :=
    (if title ≠ "" then [title ++ " " ++ title] else [])
      ++ (if description ≠ "" then [description] else [])
      ++ (if category ≠ "" then ["kategoria: " ++ category] else [])
      ++ (if location ≠ "" then ["miejsce: " ++ location] else [])
  tpNormalizeText (String.intercalate " " parts)

/-! ## `minio_handler.py`: image download -/

/-- The MinIO object store collaborator, abstracted: `statSize` returns the
object's byte size (`Option.none` models the `S3Error` of a missing object),
`fget` downloads it (`Option.none` models a download error), and `verifyOk`
is `PIL.Image.open(...).verify()` succeeding on the downloaded file. -/
structure Store (Img : Type) where
  statSize : String → Option Nat
  fget : String → Option Img
  verifyOk : Img → Bool

/-- `MinIOHandler.download_image` with `max_size_mb = 10`: `None` on a
missing object, an object larger than 10 MiB (`size/(1024*1024) > 10`), a
download error, or bytes that do not verify as an image. -/
def download_image {Img : Type} (st : Store Img) (object_name : String)
    (_item_id : String) : Option Img :=
  match st.statSize object_name with
  | Option.none => Option.none
  | some size =>
    if size > 10 * 1024 * 1024 then Option.none
    else
      match st.fget object_name with
      | Option.none => Option.none
      | some img => if st.verifyOk img then some img else Option.none

/-! ## The worker step (`main.py` and `main_enhanced.py`) -/

/-- How the worker resolves the inbound delivery: `ch.basic_ack`,
`ch.basic_nack(requeue=True)`, or `ch.basic_nack(requeue=False)`. -/
inductive Outcome where
  | acked
  | nackRequeue
  | nackNoRequeue
deriving DecidableEq

/-- The collaborators of one worker: the CLIP encoder (`encodeText` is
total; `encodeImage` returns `Option.none` when `encode_image` raises), the
object store, and the publish step (`publish r = false` models a transport
error raised by `basic_publish`). -/
structure Env (Img : Type) where
  encodeText : String → List ℝ
  store : Store Img
  encodeImage : Img → Option (List ℝ)
  publish : OutputRecord → Bool

/-- The image-embedding part of both workers: when the normalized message
carries a non-empty `image_key`, download the image and encode it; any
failure (inside the worker's `try`/`except`) leaves the image embedding
absent. -/
def workerImageEmb {Img : Type} (env : Env Img) (message : PyDict) :
    Option (List ℝ) :=
  if strGet message "image_key" ≠ "" then
    match download_image env.store (strGet message "image_key")
        (strGet message "item_id") with
    | some img => env.encodeImage img
    | Option.none => Option.none
  else Option.none

/-- `f"{text}. {description}. Category: {category}"` (`main.py`). -/
def combinedText (message : PyDict) : String :=
  strGet message "text" ++ ". " ++ strGet message "description"
    ++ ". Category: " ++ strGet message "category"

/-- The embedding fusion of `main.py`: the plain element-wise average
`(text_embedding + image_embedding) / 2` when an image embedding exists,
the text embedding verbatim otherwise.  No re-normalization is applied. -/
noncomputable def basicFuse (t : List ℝ) (i : Option (List ℝ)) : List ℝ :=
  match i with
  | some iv => List.zipWith (fun a b => (a + b) / 2) t iv
  | Option.none => t

/-- The record built by `main.py` for a validated message, before publish. -/
noncomputable def mainRecord {Img : Type} (env : Env Img)
    (message : PyDict) (ts : String) : OutputRecord :=
  let tEmb := env.encodeText (combinedText message)
  let iEmb := workerImageEmb env message
  create_output_message message (basicFuse tEmb iEmb) iEmb.isSome ts

/-- `CLIPService.process_message` of `main.py`.  `parsed = Option.none`
models a `json.JSONDecodeError`.  The returned pair is the acknowledgment
decision and the record delivered to the broker (`Option.none` when nothing
was published). -/
noncomputable def processMessage {Img : Type} (env : Env Img)
    (u2k : String → Option String) (parsed : Option PyDict) (ts : String) :
    Outcome × Option OutputRecord :=
  match parsed with
  | Option.none => (Outcome.nackNoRequeue, Option.none)
  | some raw =>
    let message := normalize_message u2k raw
    if ¬ (validate_message message).1 then (Outcome.acked, Option.none)
    else
      let r := mainRecord env message ts
      if env.publish r then (Outcome.acked, some r)
      else (Outcome.nackRequeue, Option.none)

/-- The text embedding computed by the enhanced worker
(`main_enhanced.py`): the encoder applied to the enhanced text built from
`title`, `description`, `category` and `location`. -/
noncomputable def enhancedTextEmb {Img : Type} (env : Env Img)
    (message : PyDict) : List ℝ :=
  env.encodeText (create_enhanced_text (strGet message "title")
    (strGet message "description") (strGet message "category")
    (strGet message "location"))

/-- The fusion step of `main_enhanced.py`: `combine_embeddings` at
`text_weight = 0.6` when an image embedding exists, the text embedding
verbatim otherwise (wrapped in `Except.ok`; the `Except.error` case is the
`ValueError` branch of `combine_embeddings`). -/
noncomputable def enhancedFused {Img : Type} (env : Env Img)
    (message : PyDict) : Except String (List ℝ) :=
  match workerImageEmb env message with
  | some i => combine_embeddings (enhancedTextEmb env message) i (6 / 10)
  | Option.none => Except.ok (enhancedTextEmb env message)

/-- `CLIPService.process_message` of `main_enhanced.py`.  The converter
method it calls, `message_converter.convert_to_normalized`, does not exist
anywhere in the repository (calling it raises `AttributeError`, which the
final handler turns into a requeue); it is therefore abstracted as the
parameter `convert`, with `Option.none` modelling a falsy result
(the `if not message:` branch).  A mismatched final dimension raises
`ValueError`, which falls into the generic `except Exception` handler and
is nacked with `requeue=True`. -/
noncomputable def processMessageEnhanced {Img : Type} (env : Env Img)
    (convert : PyDict → Option PyDict) (parsed : Option PyDict)
    (ts : String) : Outcome × Option OutputRecord :=
  match parsed with
  | Option.none => (Outcome.nackNoRequeue, Option.none)
  | some raw =>
    match convert raw with
    | Option.none => (Outcome.nackNoRequeue, Option.none)
    | some message =>
      if message = ([] : PyDict) then (Outcome.nackNoRequeue, Option.none)
      else
        match enhancedFused env message with
        | Except.error _ => (Outcome.nackRequeue, Option.none)
        | Except.ok finalEmb =>
          if finalEmb.length ≠ 512 then (Outcome.nackRequeue, Option.none)
          else
            let r := create_output_message message finalEmb
              (workerImageEmb env message).isSome ts
            if env.publish r then (Outcome.acked, some r)
            else (Outcome.nackRequeue, Option.none)

/-- Modelled from the spec: the fused embedding the specification
prescribes for a message with both embeddings — the element-wise
combination `textWeight*textVec + (1-textWeight)*imageVec` with the fixed
configured `textWeight = 0.6`, re-normalized to unit Euclidean length. -/
noncomputable def specFuse (t i : List ℝ) : List ℝ :=
  normalizeVec (List.zipWith (fun a b => (6 / 10) * a + (1 - 6 / 10) * b) t i)

/-! ## Dictionary lemmas -/

theorem dGet_dSet_self (d : PyDict) (k : String) (v : PyVal) :
    dGet (dSet d k v) k = some v := by
  induction d with
  | nil => simp [dGet, dSet, List.find?]
  | cons hd tl ih =>
    obtain ⟨k', v'⟩ := hd
    by_cases h : k' = k
    · subst h; simp [dGet, dSet, List.find?]
    · simp only [dSet, if_neg h]
      simpa [dGet, List.find?, h] using ih

theorem dGet_dSet_ne (d : PyDict) (k k' : String) (v : PyVal)
    (h : k' ≠ k) : dGet (dSet d k v) k' = dGet d k' := by
  have h' : ¬ (k = k') := fun hh => h hh.symm
  induction d with
  | nil => simp [dGet, dSet, List.find?, h']
  | cons hd tl ih =>
    obtain ⟨k0, v0⟩ := hd
    by_cases h0 : k0 = k
    · subst h0
      simp [dGet, dSet, List.find?, h']
    · simp only [dSet, if_neg h0]
      by_cases h1 : k0 = k'
      · subst h1; simp [dGet, List.find?]
      · simpa [dGet, List.find?, h1] using ih

theorem dGet_dErase_self (d : PyDict) (k : String) :
    dGet (dErase d k) k = Option.none := by
  induction d with
  | nil => simp [dGet, dErase, List.find?]
  | cons hd tl ih =>
    obtain ⟨k0, v0⟩ := hd
    by_cases h0 : k0 = k
    · subst h0; simp only [dErase, List.filter] at ih ⊢
      simpa using ih
    · simp only [dErase, List.filter] at ih ⊢
      simp only [dGet, List.find?, h0] at ih ⊢
      simp only [decide_eq_true_eq, decide_not] at ih ⊢
      simp [h0] at ih ⊢

theorem dGet_dErase_ne (d : PyDict) (k k' : String) (h : k' ≠ k) :
    dGet (dErase d k) k' = dGet d k' := by
  have h' : ¬ (k = k') := fun hh => h hh.symm
  induction d with
  | nil => simp [dGet, dErase, List.find?]
  | cons hd tl ih =>
    obtain ⟨k0, v0⟩ := hd
    by_cases h0 : k0 = k
    · subst h0
      simpa [dGet, dErase, List.find?, h'] using ih
    · by_cases h1 : k0 = k'
      · subst h1; simp [dGet, dErase, List.find?, h0]
      · simpa [dGet, dErase, List.find?, h0, h1] using ih

theorem dGet_dSetdefault_self (d : PyDict) (k : String) (v : PyVal) :
    dGet (dSetdefault d k v) k = some ((dGet d k).getD v) := by
  unfold dSetdefault
  cases h : dGet d k with
  | none => simp [dGet_dSet_self]
  | some w => simp [h]

theorem dGet_dSetdefault_ne (d : PyDict) (k k' : String) (v : PyVal)
    (h : k' ≠ k) : dGet (dSetdefault d k v) k' = dGet d k' := by
  unfold dSetdefault
  cases hg : dGet d k with
  | none => simp [dGet_dSet_ne _ _ _ _ h]
  | some w => simp

/-! ## `normalize_message` field lemmas -/

theorem normCore_image_key (u2k : String → Option String) (d : PyDict) :
    dGet (normCore u2k d) "image_key"
      = some (PyVal.str (extract_image_key u2k d)) := by
  unfold normCore
  rw [dGet_dSetdefault_ne _ _ _ _ (by decide), dGet_dSetdefault_ne _ _ _ _ (by decide),
    dGet_dSet_ne _ _ _ _ (by decide), dGet_dSet_ne _ _ _ _ (by decide),
    dGet_dSet_ne _ _ _ _ (by decide), dGet_dSet_ne _ _ _ _ (by decide),
    dGet_dErase_ne _ _ _ (by decide), dGet_dSet_self]

theorem normCore_image_url (u2k : String → Option String) (d : PyDict) :
    dGet (normCore u2k d) "image_url" = Option.none := by
  unfold normCore
  rw [dGet_dSetdefault_ne _ _ _ _ (by decide), dGet_dSetdefault_ne _ _ _ _ (by decide),
    dGet_dSet_ne _ _ _ _ (by decide), dGet_dSet_ne _ _ _ _ (by decide),
    dGet_dSet_ne _ _ _ _ (by decide), dGet_dSet_ne _ _ _ _ (by decide),
    dGet_dErase_self]

theorem normCore_text (u2k : String → Option String) (d : PyDict) :
    dGet (normCore u2k d) "text" = some (PyVal.str (fieldNormText d "text")) := by
  unfold normCore
  rw [dGet_dSetdefault_ne _ _ _ _ (by decide), dGet_dSetdefault_ne _ _ _ _ (by decide),
    dGet_dSet_ne _ _ _ _ (by decide), dGet_dSet_ne _ _ _ _ (by decide),
    dGet_dSet_ne _ _ _ _ (by decide), dGet_dSet_self]

theorem normCore_description (u2k : String → Option String) (d : PyDict) :
    dGet (normCore u2k d) "description"
      = some (PyVal.str (fieldNormText d "description")) := by
  unfold normCore
  rw [dGet_dSetdefault_ne _ _ _ _ (by decide), dGet_dSetdefault_ne _ _ _ _ (by decide),
    dGet_dSet_ne _ _ _ _ (by decide), dGet_dSet_ne _ _ _ _ (by decide),
    dGet_dSet_self]

theorem normCore_category (u2k : String → Option String) (d : PyDict) :
    dGet (normCore u2k d) "category"
      = some (PyVal.str (fieldNormText d "category")) := by
  unfold normCore
  rw [dGet_dSetdefault_ne _ _ _ _ (by decide), dGet_dSetdefault_ne _ _ _ _ (by decide),
    dGet_dSet_ne _ _ _ _ (by decide), dGet_dSet_self]

theorem normCore_location (u2k : String → Option String) (d : PyDict) :
    dGet (normCore u2k d) "location"
      = some (PyVal.str (fieldNormText d "location")) := by
  unfold normCore
  rw [dGet_dSetdefault_ne _ _ _ _ (by decide), dGet_dSetdefault_ne _ _ _ _ (by decide),
    dGet_dSet_self]

theorem normCore_item_id (u2k : String → Option String) (d : PyDict) :
    dGet (normCore u2k d) "item_id"
      = some ((dGet d "item_id").getD (PyVal.str "")) := by
  unfold normCore
  rw [dGet_dSetdefault_ne _ _ _ _ (by decide), dGet_dSetdefault_self]
  rw [dGet_dSet_ne _ _ _ _ (by decide), dGet_dSet_ne _ _ _ _ (by decide),
    dGet_dSet_ne _ _ _ _ (by decide), dGet_dSet_ne _ _ _ _ (by decide),
    dGet_dErase_ne _ _ _ (by decide), dGet_dSet_ne _ _ _ _ (by decide)]

theorem normCore_date_lost (u2k : String → Option String) (d : PyDict) :
    dGet (normCore u2k d) "date_lost"
      = some ((dGet d "date_lost").getD (PyVal.str "")) := by
  unfold normCore
  rw [dGet_dSetdefault_self]
  rw [dGet_dSetdefault_ne _ _ _ _ (by decide),
    dGet_dSet_ne _ _ _ _ (by decide), dGet_dSet_ne _ _ _ _ (by decide),
    dGet_dSet_ne _ _ _ _ (by decide), dGet_dSet_ne _ _ _ _ (by decide),
    dGet_dErase_ne _ _ _ (by decide), dGet_dSet_ne _ _ _ _ (by decide)]

theorem normCore_contact (u2k : String → Option String) (d : PyDict)
    (k : String)
    (hk : k = "contact_info" ∨ k = "contact_email" ∨ k = "contact_phone") :
    dGet (normCore u2k d) k = dGet d k := by
  unfold normCore
  rcases hk with hk | hk | hk <;> subst hk <;>
    rw [dGet_dSetdefault_ne _ _ _ _ (by decide), dGet_dSetdefault_ne _ _ _ _ (by decide),
      dGet_dSet_ne _ _ _ _ (by decide), dGet_dSet_ne _ _ _ _ (by decide),
      dGet_dSet_ne _ _ _ _ (by decide), dGet_dSet_ne _ _ _ _ (by decide),
      dGet_dErase_ne _ _ _ (by decide), dGet_dSet_ne _ _ _ _ (by decide)]

/-- `dGet` after the `contact_info` fallback, for any other key. -/
theorem normalize_message_eq_core (u2k : String → Option String) (d : PyDict)
    (k : String) (hk : k ≠ "contact_info") :
    dGet (normalize_message u2k d) k = dGet (normCore u2k d) k := by
  unfold normalize_message
  by_cases hc : truthy (dGet (normCore u2k d) "contact_info")
  · simp [hc]
  · simp [hc, dGet_dSet_ne _ _ _ _ hk]

theorem normalize_message_contact_info (u2k : String → Option String)
    (d : PyDict) :
    dGet (normalize_message u2k d) "contact_info"
      = if truthy (dGet d "contact_info") then dGet d "contact_info"
        else some (PyVal.str (joinedContact d)) := by
  have hc := normCore_contact u2k d "contact_info" (Or.inl rfl)
  have hce := normCore_contact u2k d "contact_email" (Or.inr (Or.inl rfl))
  have hcp := normCore_contact u2k d "contact_phone" (Or.inr (Or.inr rfl))
  unfold normalize_message
  by_cases h : truthy (dGet d "contact_info")
  · simp [hc, h]
  · rw [hc, if_neg h, if_neg h, dGet_dSet_self]
    have : joinedContact (normCore u2k d) = joinedContact d := by
      unfold joinedContact
      rw [show strGet (normCore u2k d) "contact_email" = strGet d "contact_email" by
            unfold strGet; rw [hce],
          show strGet (normCore u2k d) "contact_phone" = strGet d "contact_phone" by
            unfold strGet; rw [hcp]]
    rw [this]

/-! ## Shared concrete instances used by witnesses and counterexamples -/

/-- A URL-to-key conversion that always fails (no legacy URLs involved). -/
def noU2k : String → Option String := fun _ => Option.none

/-- A store in which every stat call fails (object not found). -/
def emptyStore : Store Unit :=
  { statSize := fun _ => Option.none
    fget := fun _ => Option.none
    verifyOk := fun _ => true }

/-- A minimal worker environment over `Img := Unit`. -/
def unitEnv : Env Unit :=
  { encodeText := fun _ => []
    store := emptyStore
    encodeImage := fun _ => Option.none
    publish := fun _ => true }

/-! ## C10: normalized messages always carry `image_key`, never `image_url` -/

/-- C10: for every dictionary input (normalization never hits its error
path in the model, every step being total), the normalizer's output binds
`image_key` to a string — the resolved key — and carries no `image_url`
binding: the legacy field is removed after resolution. -/
theorem claim10_image_key_invariant (u2k : String → Option String)
    (d : PyDict) :
    dGet (normalize_message u2k d) "image_key"
        = some (PyVal.str (extract_image_key u2k d))
    ∧ dGet (normalize_message u2k d) "image_url" = Option.none := by
  constructor
  · rw [normalize_message_eq_core _ _ _ (by decide), normCore_image_key]
  · rw [normalize_message_eq_core _ _ _ (by decide), normCore_image_url]

/-! ## C6: which fields the normalizer whitespace-normalizes -/

/-- C6 (counterexample): the claim says `date_lost` is whitespace-collapsed
and trimmed in the normalizer's output; in fact a present `date_lost` value
is copied verbatim, untrimmed and uncollapsed. -/
theorem claim6_counterexample :
    dGet (normalize_message noU2k
        [("item_id", PyVal.str "x"), ("text", PyVal.str "t"),
         ("date_lost", PyVal.str "  a  b ")]) "date_lost"
      = some (PyVal.str "  a  b ")
    ∧ normalizeText "  a  b " ≠ "  a  b " := by decide

/-- C6 (amended): the normalizer coerces and whitespace-normalizes exactly
`text`, `description`, `category` and `location` (missing/None to `""`,
runs collapsed, edges trimmed via `fieldNormText`); `date_lost` is only
defaulted to `""` when missing and otherwise copied verbatim; and
`contact_info` is kept verbatim when present and truthy, otherwise joined
from `contact_email` and `contact_phone` with `", "`, with no whitespace
normalization in either case. -/
theorem claim6_amended (u2k : String → Option String) (d : PyDict) :
    dGet (normalize_message u2k d) "text"
        = some (PyVal.str (fieldNormText d "text"))
    ∧ dGet (normalize_message u2k d) "description"
        = some (PyVal.str (fieldNormText d "description"))
    ∧ dGet (normalize_message u2k d) "category"
        = some (PyVal.str (fieldNormText d "category"))
    ∧ dGet (normalize_message u2k d) "location"
        = some (PyVal.str (fieldNormText d "location"))
    ∧ dGet (normalize_message u2k d) "date_lost"
        = some ((dGet d "date_lost").getD (PyVal.str ""))
    ∧ dGet (normalize_message u2k d) "contact_info"
        = (if truthy (dGet d "contact_info") then dGet d "contact_info"
           else some (PyVal.str (joinedContact d))) := by
  refine ⟨?_, ?_, ?_, ?_, ?_, normalize_message_contact_info u2k d⟩
  · rw [normalize_message_eq_core _ _ _ (by decide), normCore_text]
  · rw [normalize_message_eq_core _ _ _ (by decide), normCore_description]
  · rw [normalize_message_eq_core _ _ _ (by decide), normCore_category]
  · rw [normalize_message_eq_core _ _ _ (by decide), normCore_location]
  · rw [normalize_message_eq_core _ _ _ (by decide), normCore_date_lost]

/-! ## C5: the exact failure conditions of `validate_message` -/

/-- C5 (counterexample): a key containing a backslash — none of the
claimed failure conditions (`item_id` empty, no text field, control
characters `\0`/`\n`/`\r`/`\t`, length over 1024 bytes) — is nevertheless
rejected by `validate_message`. -/
theorem claim5_counterexample :
    (validate_message
        [("item_id", PyVal.str "x"), ("text", PyVal.str "t"),
         ("image_key", PyVal.str "a\\b")]).1 = false
    ∧ "x" ≠ "" ∧ "t" ≠ ""
    ∧ ("a\\b".data.any
        (fun c => c = '\x00' || c = '\n' || c = '\r' || c = '\t')) = false
    ∧ utf8Len "a\\b" ≤ 1024 := by decide

/-- The boolean bad-character scan of `_is_valid_object_key`, as a
proposition. -/
theorem badChar_iff (s : String) :
    (s.data.any
        (fun c => c = '\\' || c = '\x00' || c = '\n' || c = '\r' || c = '\t'))
        = true
    ↔ ∃ c ∈ s.data, c = '\\' ∨ c = '\x00' ∨ c = '\n' ∨ c = '\r' ∨ c = '\t' := by
  rw [List.any_eq_true]
  constructor
  · rintro ⟨c, hc, hb⟩
    refine ⟨c, hc, ?_⟩
    simp only [Bool.or_eq_true, decide_eq_true_eq] at hb
    tauto
  · rintro ⟨c, hc, hb⟩
    refine ⟨c, hc, ?_⟩
    simp only [Bool.or_eq_true, decide_eq_true_eq]
    tauto

/-- C5 (amended): `validate_message` fails exactly when `item_id` is
missing/empty, or all of text/description/category are missing/empty, or a
non-empty `image_key` contains one of the five forbidden characters —
backslash in addition to `\0`, newline, carriage return, tab — or exceeds
1024 UTF-8 bytes; it succeeds in every other case. -/
theorem claim5_amended (d : PyDict) :
    (validate_message d).1 = false ↔
      (truthy (dGet d "item_id") = false
       ∨ (truthy (dGet d "text") = false
          ∧ truthy (dGet d "description") = false
          ∧ truthy (dGet d "category") = false)
       ∨ (strGet d "image_key" ≠ ""
          ∧ ((∃ c ∈ (strGet d "image_key").data,
                c = '\\' ∨ c = '\x00' ∨ c = '\n' ∨ c = '\r' ∨ c = '\t')
             ∨ 1024 < utf8Len (strGet d "image_key")))) := by
  by_cases h1 : truthy (dGet d "item_id")
  case neg =>
    have h1f : truthy (dGet d "item_id") = false := by simpa using h1
    have hL : (validate_message d).1 = false := by simp [validate_message, h1f]
    exact iff_of_true hL (Or.inl h1f)
  case pos =>
  by_cases h2 : truthy (dGet d "text") || truthy (dGet d "description")
      || truthy (dGet d "category")
  case neg =>
    have ha : truthy (dGet d "text") = false := by
      by_contra hx
      exact h2 (by simp [eq_true_of_ne_false hx])
    have hb : truthy (dGet d "description") = false := by
      by_contra hx
      exact h2 (by simp [eq_true_of_ne_false hx])
    have hc : truthy (dGet d "category") = false := by
      by_contra hx
      exact h2 (by simp [eq_true_of_ne_false hx])
    have hL : (validate_message d).1 = false := by
      simp [validate_message, h1, ha, hb, hc]
    exact iff_of_true hL (Or.inr (Or.inl ⟨ha, hb, hc⟩))
  case pos =>
  by_cases h3 : strGet d "image_key" = ""
  case pos =>
    have hL : (validate_message d).1 = true := by
      simp [validate_message, h1, h2, h3]
    refine iff_of_false (by simp [hL]) ?_
    rintro (hf | ⟨ha, hb, hc⟩ | ⟨hne, _⟩)
    · exact absurd h1 (by simp [hf])
    · simp [ha, hb, hc] at h2
    · exact hne h3
  case neg =>
  by_cases h4 : (strGet d "image_key").data.any
      (fun c => c = '\\' || c = '\x00' || c = '\n' || c = '\r' || c = '\t')
  case pos =>
    have hL : (validate_message d).1 = false := by
      simp [validate_message, is_valid_object_key, h1, h2, h3, h4]
    exact iff_of_true hL (Or.inr (Or.inr ⟨h3, Or.inl ((badChar_iff _).1 h4)⟩))
  case neg =>
  have h4f : ((strGet d "image_key").data.any
      (fun c => c = '\\' || c = '\x00' || c = '\n' || c = '\r' || c = '\t'))
      = false := by simpa using h4
  by_cases h5 : 1024 < utf8Len (strGet d "image_key")
  case pos =>
    have hL : (validate_message d).1 = false := by
      simp [validate_message, is_valid_object_key, h1, h2, h3, h4f, h5]
    exact iff_of_true hL (Or.inr (Or.inr ⟨h3, Or.inr h5⟩))
  case neg =>
    have hL : (validate_message d).1 = true := by
      simp [validate_message, is_valid_object_key, h1, h2, h3, h4f, h5]
    refine iff_of_false (by simp [hL]) ?_
    rintro (hf | ⟨ha, hb, hc⟩ | ⟨_, hbad | hlen⟩)
    · exact absurd h1 (by simp [hf])
    · simp [ha, hb, hc] at h2
    · exact absurd ((badChar_iff _).2 hbad) (by simp [h4f])
    · exact h5 hlen

/-! ## C2: a message with empty `item_id` is acked, not rejected -/

/-- C2 (counterexample): a message whose normalized form has an empty
`item_id` fails validation with the `item_id` reason, but the worker then
*acks* the delivery (`ch.basic_ack`) instead of rejecting it without
requeue. -/
theorem claim2_counterexample :
    (validate_message (normalize_message noU2k [("text", PyVal.str "t")])).1
        = false
    ∧ (processMessage unitEnv noU2k (some [("text", PyVal.str "t")]) "ts").1
        = Outcome.acked
    ∧ Outcome.acked ≠ Outcome.nackNoRequeue := by decide

/-- C2 (amended): for every inbound message whose normalized form has an
empty/absent `item_id`, validation fails with a reason string mentioning
`item_id`, and the worker acknowledges the message — removing it from the
queue so it is never redelivered — and publishes no output record for it
(the removal is an ack, not a no-requeue rejection). -/
theorem claim2_amended {Img : Type} (env : Env Img)
    (u2k : String → Option String) (raw : PyDict) (ts : String)
    (h : ¬ truthy (dGet (normalize_message u2k raw) "item_id")) :
    validate_message (normalize_message u2k raw)
        = (false, some "Missing required field: item_id")
    ∧ (∃ pre post : String,
        "Missing required field: item_id" = pre ++ "item_id" ++ post)
    ∧ processMessage env u2k (some raw) ts = (Outcome.acked, Option.none) := by
  have hv : validate_message (normalize_message u2k raw)
      = (false, some "Missing required field: item_id") := by
    unfold validate_message
    simp [h]
  refine ⟨hv, ⟨"Missing required field: ", "", by decide⟩, ?_⟩
  unfold processMessage
  simp [hv]

/-- C2 (witness): the amended theorem applied to a concrete message with
no `item_id`. -/
theorem claim2_witness :
    validate_message (normalize_message noU2k [("text", PyVal.str "t")])
        = (false, some "Missing required field: item_id")
    ∧ (∃ pre post : String,
        "Missing required field: item_id" = pre ++ "item_id" ++ post)
    ∧ processMessage unitEnv noU2k (some [("text", PyVal.str "t")]) "ts"
        = (Outcome.acked, Option.none) :=
  claim2_amended unitEnv noU2k [("text", PyVal.str "t")] "ts" (by decide)

/-! ## C9: acknowledgment versus publish -/

/-- C9 (counterexample): the claim's universal "the inbound message is
acknowledged only after the outbound record has been successfully
published" is violated by the validation-failure path, which acks the
message without publishing anything. -/
theorem claim9_counterexample :
    (processMessage unitEnv noU2k (some [("description", PyVal.str "d")]) "ts")
        = (Outcome.acked, Option.none) := by rfl

/-- C9 (amended): if validation passes and the publish step raises a
transport error, the message is nacked with `requeue=true` and is never
acked; an ack without a successful publish happens only on the
validation-failure path (where nothing is published). -/
theorem claim9_amended {Img : Type} (env : Env Img)
    (u2k : String → Option String) (raw : PyDict) (ts : String) :
    ((validate_message (normalize_message u2k raw)).1 = true →
      env.publish (mainRecord env (normalize_message u2k raw) ts) = false →
      processMessage env u2k (some raw) ts = (Outcome.nackRequeue, Option.none))
    ∧ ((processMessage env u2k (some raw) ts).1 = Outcome.acked →
        ((validate_message (normalize_message u2k raw)).1 = false
          ∧ (processMessage env u2k (some raw) ts).2 = Option.none)
        ∨ (∃ r, (processMessage env u2k (some raw) ts).2 = some r
            ∧ env.publish r = true)) := by
  by_cases hv : (validate_message (normalize_message u2k raw)).1
  · by_cases hp : env.publish (mainRecord env (normalize_message u2k raw) ts)
    · constructor
      · intro _ hpf
        rw [hp] at hpf
        cases hpf
      · intro _
        right
        refine ⟨mainRecord env (normalize_message u2k raw) ts, ?_, hp⟩
        unfold processMessage
        simp [hv, hp]
    · have hpf : env.publish (mainRecord env (normalize_message u2k raw) ts)
          = false := by simpa using hp
      have hres : processMessage env u2k (some raw) ts
          = (Outcome.nackRequeue, Option.none) := by
        unfold processMessage
        simp [hv, hpf]
      constructor
      · intro _ _
        exact hres
      · intro hack
        rw [hres] at hack
        cases hack
  · have hvf : (validate_message (normalize_message u2k raw)).1 = false := by
      simpa using hv
    have hres : processMessage env u2k (some raw) ts
        = (Outcome.acked, Option.none) := by
      unfold processMessage
      simp [hvf]
    constructor
    · intro hvt
      rw [hvt] at hvf
      cases hvf
    · intro _
      left
      exact ⟨hvf, by rw [hres]⟩

/-- An environment whose publish step always fails with a transport
error. -/
def failPublishEnv : Env Unit :=
  { encodeText := fun _ => []
    store := emptyStore
    encodeImage := fun _ => Option.none
    publish := fun _ => false }

/-- C9 (witness): a valid message whose publish fails is nacked with
requeue and nothing is recorded as published. -/
theorem claim9_witness :
    processMessage failPublishEnv noU2k
        (some [("item_id", PyVal.str "x"), ("text", PyVal.str "t")]) "ts"
      = (Outcome.nackRequeue, Option.none) :=
  (claim9_amended failPublishEnv noU2k
      [("item_id", PyVal.str "x"), ("text", PyVal.str "t")] "ts").1
    (by decide) rfl

/-! ## C8: image-fetch failures downgrade to text-only processing -/

/-- `download_image` returns `None` in each failure case the claim
enumerates: object not found, size exceeded, download error, or bytes that
do not verify as an image. -/
theorem download_image_none_cases {Img : Type} (st : Store Img)
    (k id : String)
    (h : st.statSize k = Option.none
       ∨ (∃ n, st.statSize k = some n ∧ n > 10 * 1024 * 1024)
       ∨ st.fget k = Option.none
       ∨ (∃ img, st.fget k = some img ∧ st.verifyOk img = false)) :
    download_image st k id = Option.none := by
  unfold download_image
  rcases hs : st.statSize k with _ | n
  · rfl
  · rcases h with h | ⟨n', hn', hbig⟩ | h | ⟨img, himg, hbad⟩
    · rw [hs] at h
      cases h
    · rw [hs] at hn'
      injection hn' with hn'
      subst hn'
      simp [hbig]
    · by_cases hbig : n > 10 * 1024 * 1024
      · simp [hbig]
      · simp [hbig, h]
    · by_cases hbig : n > 10 * 1024 * 1024
      · simp [hbig]
      · simp [hbig, himg, hbad]

/-- C8: for every message whose normalized form carries a non-empty
`image_key` and whose image fetch fails in any of the enumerated ways,
processing completes as text-only: the worker acks (nothing is rejected or
requeued for this reason, and no exception escapes — every failure is an
`Option.none` absorbed before fusion), and the published record has
`has_image_embedding = false` with the embedding equal to the text
embedding verbatim. -/
theorem claim8_text_only_on_fetch_failure {Img : Type} (env : Env Img)
    (u2k : String → Option String) (raw : PyDict) (ts : String)
    (hv : (validate_message (normalize_message u2k raw)).1 = true)
    (hik : strGet (normalize_message u2k raw) "image_key" ≠ "")
    (hfail : env.store.statSize (strGet (normalize_message u2k raw) "image_key")
          = Option.none
       ∨ (∃ n, env.store.statSize (strGet (normalize_message u2k raw) "image_key")
            = some n ∧ n > 10 * 1024 * 1024)
       ∨ env.store.fget (strGet (normalize_message u2k raw) "image_key")
          = Option.none
       ∨ (∃ img, env.store.fget (strGet (normalize_message u2k raw) "image_key")
            = some img ∧ env.store.verifyOk img = false))
    (hpub : ∀ r, env.publish r = true) :
    processMessage env u2k (some raw) ts
        = (Outcome.acked, some (mainRecord env (normalize_message u2k raw) ts))
    ∧ (mainRecord env (normalize_message u2k raw) ts).has_image_embedding = false
    ∧ (mainRecord env (normalize_message u2k raw) ts).embedding
        = env.encodeText (combinedText (normalize_message u2k raw)) := by
  have hdl := download_image_none_cases env.store
    (strGet (normalize_message u2k raw) "image_key")
    (strGet (normalize_message u2k raw) "item_id") hfail
  have hie : workerImageEmb env (normalize_message u2k raw) = Option.none := by
    unfold workerImageEmb
    simp [hik, hdl]
  refine ⟨?_, ?_, ?_⟩
  · unfold processMessage
    simp [hv, hpub]
  · unfold mainRecord
    simp [hie, create_output_message]
  · unfold mainRecord
    simp [hie, create_output_message, basicFuse]

/-- C8 (witness): a not-found image on a concrete valid message. -/
theorem claim8_witness :
    processMessage unitEnv noU2k
        (some [("item_id", PyVal.str "x"), ("text", PyVal.str "t"),
               ("image_key", PyVal.str "k")]) "ts"
      = (Outcome.acked,
         some (mainRecord unitEnv
           (normalize_message noU2k
             [("item_id", PyVal.str "x"), ("text", PyVal.str "t"),
              ("image_key", PyVal.str "k")]) "ts"))
    ∧ (mainRecord unitEnv
        (normalize_message noU2k
          [("item_id", PyVal.str "x"), ("text", PyVal.str "t"),
           ("image_key", PyVal.str "k")]) "ts").has_image_embedding = false
    ∧ (mainRecord unitEnv
        (normalize_message noU2k
          [("item_id", PyVal.str "x"), ("text", PyVal.str "t"),
           ("image_key", PyVal.str "k")]) "ts").embedding
        = unitEnv.encodeText (combinedText (normalize_message noU2k
            [("item_id", PyVal.str "x"), ("text", PyVal.str "t"),
             ("image_key", PyVal.str "k")])) :=
  claim8_text_only_on_fetch_failure unitEnv noU2k
    [("item_id", PyVal.str "x"), ("text", PyVal.str "t"),
     ("image_key", PyVal.str "k")] "ts"
    (by decide) (by decide) (Or.inl rfl) (fun _ => rfl)

/-! ## C3: embedding-dimension mismatch is requeued, not fatal -/

/-- An environment whose text encoder yields a vector of the wrong
dimension (length 1 instead of 512). -/
def wrongDimEnv : Env Unit :=
  { encodeText := fun _ => [(0 : ℝ)]
    store := emptyStore
    encodeImage := fun _ => Option.none
    publish := fun _ => true }

/-- C3 (counterexample): on a run whose final embedding has dimension 1
instead of 512, the enhanced worker does not halt and does not leave the
message unrequeued: the raised `ValueError` falls into the generic handler
and the message is nacked with `requeue=true` (per-message retry), with no
record published. -/
theorem claim3_counterexample :
    processMessageEnhanced wrongDimEnv (fun d => some d)
        (some [("item_id", PyVal.str "x"), ("title", PyVal.str "t")]) "ts"
      = (Outcome.nackRequeue, Option.none)
    ∧ Outcome.nackRequeue ≠ Outcome.nackNoRequeue := by
  exact ⟨rfl, by decide⟩

/-- C3 (amended): whenever the converted message's final fused embedding
has a dimension other than 512, the enhanced worker publishes no record
for the message — but instead of halting, it nacks the message with
`requeue=true`, making the mismatch a per-message retry. -/
theorem claim3_amended {Img : Type} (env : Env Img)
    (convert : PyDict → Option PyDict) (raw m : PyDict) (ts : String)
    (hc : convert raw = some m) (hne : m ≠ ([] : PyDict))
    (v : List ℝ) (hf : enhancedFused env m = Except.ok v)
    (hd : v.length ≠ 512) :
    processMessageEnhanced env convert (some raw) ts
      = (Outcome.nackRequeue, Option.none) := by
  unfold processMessageEnhanced
  simp [hc, hne, hf, hd]

/-- C3 (witness): the amended theorem applied to the concrete
wrong-dimension run. -/
theorem claim3_witness :
    processMessageEnhanced wrongDimEnv (fun d => some d)
        (some [("item_id", PyVal.str "x"), ("title", PyVal.str "t")]) "ts"
      = (Outcome.nackRequeue, Option.none) :=
  claim3_amended wrongDimEnv (fun d => some d)
    [("item_id", PyVal.str "x"), ("title", PyVal.str "t")]
    [("item_id", PyVal.str "x"), ("title", PyVal.str "t")] "ts"
    rfl (by decide) [(0 : ℝ)] rfl (by decide)

/-! ## C1: what the two workers actually publish as the fused embedding -/

/-- An environment producing a fixed text embedding `[1, 0]` and a fixed
image embedding `[0, 1]`, with every store call succeeding. -/
def bothEmbEnv : Env Unit :=
  { encodeText := fun _ => [(1 : ℝ), 0]
    store :=
      { statSize := fun _ => some 0
        fget := fun _ => some ()
        verifyOk := fun _ => true }
    encodeImage := fun _ => some [(0 : ℝ), 1]
    publish := fun _ => true }

/-- The message used by the C1 counterexample. -/
def rawBoth : PyDict :=
  [("item_id", PyVal.str "x"), ("text", PyVal.str "t"),
   ("image_key", PyVal.str "k")]

/-- C1 (counterexample): the basic worker (`main.py`) publishes the plain
average of the two embeddings, which differs from the weighted
re-normalized combination (`textWeight = 0.6`) the claim prescribes for
every processed message. -/
theorem claim1_counterexample :
    (processMessage bothEmbEnv noU2k (some rawBoth) "ts").2.map
        OutputRecord.embedding
      = some (List.zipWith (fun a b => (a + b) / 2) [(1 : ℝ), 0] [(0 : ℝ), 1])
    ∧ List.zipWith (fun a b => (a + b) / 2) [(1 : ℝ), 0] [(0 : ℝ), 1]
        ≠ specFuse [(1 : ℝ), 0] [(0 : ℝ), 1] := by
  constructor
  · rfl
  · intro h
    simp only [specFuse, normalizeVec, List.zipWith, List.map] at h
    rw [List.cons.injEq, List.cons.injEq] at h
    obtain ⟨h1, h2, -⟩ := h
    set s := l2norm [6 / 10 * 1 + (1 - 6 / 10) * 0, 6 / 10 * 0 + (1 - 6 / 10) * 1]
      with hs
    rcases eq_or_ne s 0 with h0 | h0
    · rw [h0, div_zero] at h1
      norm_num at h1
    · have h12 : (6 / 10 * 1 + (1 - 6 / 10) * 0 : ℝ) / s
          = (6 / 10 * 0 + (1 - 6 / 10) * 1) / s := by
        rw [← h1, ← h2]
        norm_num
      have h3 := congrArg (fun x : ℝ => x * s) h12
      simp only [div_mul_cancel₀ _ h0] at h3
      norm_num at h3

/-- C1 (amended): with both embeddings available, the basic worker
(`main.py`) publishes the plain element-wise average `(t + i) / 2` with no
re-normalization, while the enhanced worker (`main_enhanced.py`) publishes
the spec's weighted combination `0.6*t + 0.4*i` re-normalized to unit
length; with no image embedding, both publish the text embedding
verbatim. -/
theorem claim1_amended {Img : Type} (env : Env Img)
    (u2k : String → Option String) (convert : PyDict → Option PyDict)
    (raw m : PyDict) (ts : String) :
    ((validate_message (normalize_message u2k raw)).1 = true →
     (∀ r, env.publish r = true) →
     ∀ i, workerImageEmb env (normalize_message u2k raw) = some i →
      (processMessage env u2k (some raw) ts).2.map OutputRecord.embedding
        = some (List.zipWith (fun a b => (a + b) / 2)
            (env.encodeText (combinedText (normalize_message u2k raw))) i))
    ∧ ((validate_message (normalize_message u2k raw)).1 = true →
       (∀ r, env.publish r = true) →
       workerImageEmb env (normalize_message u2k raw) = Option.none →
       (processMessage env u2k (some raw) ts).2.map OutputRecord.embedding
         = some (env.encodeText (combinedText (normalize_message u2k raw))))
    ∧ (convert raw = some m → m ≠ ([] : PyDict) →
       (∀ r, env.publish r = true) →
       ∀ i, workerImageEmb env m = some i →
       (specFuse (enhancedTextEmb env m) i).length = 512 →
       (processMessageEnhanced env convert (some raw) ts).2.map
           OutputRecord.embedding
         = some (specFuse (enhancedTextEmb env m) i))
    ∧ (convert raw = some m → m ≠ ([] : PyDict) →
       (∀ r, env.publish r = true) →
       workerImageEmb env m = Option.none →
       (enhancedTextEmb env m).length = 512 →
       (processMessageEnhanced env convert (some raw) ts).2.map
           OutputRecord.embedding
         = some (enhancedTextEmb env m)) := by
  refine ⟨?_, ?_, ?_, ?_⟩
  · intro hv hpub i hi
    unfold processMessage
    simp only [hv, hpub, if_true, not_true, if_neg, ite_true]
    simp [hv, hpub, mainRecord, create_output_message, basicFuse, hi]
  · intro hv hpub hi
    unfold processMessage
    simp [hv, hpub, mainRecord, create_output_message, basicFuse, hi]
  · intro hc hne hpub i hi hlen
    have hcomb : combine_embeddings (enhancedTextEmb env m) i (6 / 10)
        = Except.ok (specFuse (enhancedTextEmb env m) i) := by
      unfold combine_embeddings
      rw [if_pos (by norm_num)]
      rfl
    have hf : enhancedFused env m
        = Except.ok (specFuse (enhancedTextEmb env m) i) := by
      unfold enhancedFused
      rw [hi]
      exact hcomb
    unfold processMessageEnhanced
    simp [hc, hne, hf, hlen, hpub, create_output_message]
  · intro hc hne hpub hi hlen
    have hf : enhancedFused env m = Except.ok (enhancedTextEmb env m) := by
      unfold enhancedFused
      rw [hi]
    unfold processMessageEnhanced
    simp [hc, hne, hf, hlen, hpub, create_output_message]

/-- C1 (witness): the amended theorem's text-only clause at a concrete
message — the basic worker publishes the text embedding verbatim. -/
theorem claim1_witness :
    (processMessage unitEnv noU2k
        (some [("item_id", PyVal.str "x"), ("text", PyVal.str "t")]) "ts").2.map
        OutputRecord.embedding
      = some (unitEnv.encodeText (combinedText (normalize_message noU2k
          [("item_id", PyVal.str "x"), ("text", PyVal.str "t")]))) :=
  (claim1_amended unitEnv noU2k (fun d => some d)
      [("item_id", PyVal.str "x"), ("text", PyVal.str "t")] [] "ts").2.1
    (by decide) (fun _ => rfl) rfl

/-! ## C7: `combine_embeddings` on unit vectors -/

theorem sumSq_nil : sumSq [] = 0 := rfl

theorem sumSq_cons (x : ℝ) (v : List ℝ) :
    sumSq (x :: v) = x * x + sumSq v := by
  simp [sumSq]

theorem sumSq_nonneg (v : List ℝ) : 0 ≤ sumSq v := by
  induction v with
  | nil => simp [sumSq_nil]
  | cons x xs ih =>
    rw [sumSq_cons]
    nlinarith [mul_self_nonneg x]

theorem sumSq_map_div (v : List ℝ) (c : ℝ) :
    sumSq (v.map (fun x => x / c)) = sumSq v / (c * c) := by
  induction v with
  | nil => simp [sumSq_nil]
  | cons x xs ih =>
    rw [List.map_cons, sumSq_cons, sumSq_cons, ih, div_mul_div_comm,
      add_div]

/-- Re-normalization really produces a unit vector whenever the input is
not the zero vector (`sumSq v ≠ 0`). -/
theorem sumSq_normalizeVec (v : List ℝ) (h : sumSq v ≠ 0) :
    sumSq (normalizeVec v) = 1 := by
  unfold normalizeVec l2norm
  rw [sumSq_map_div, ← Real.sqrt_mul_self (sumSq_nonneg v),
    Real.sqrt_mul_self (sumSq_nonneg v), Real.mul_self_sqrt (sumSq_nonneg v),
    div_self h]

/-- A vector of unit sum-of-squares is fixed by `normalizeVec`. -/
theorem normalizeVec_of_unit (v : List ℝ) (h : sumSq v = 1) :
    normalizeVec v = v := by
  unfold normalizeVec l2norm
  rw [h, Real.sqrt_one]
  simp

theorem weightedSum_one (a b : List ℝ) (h : a.length = b.length) :
    weightedSum 1 a b = a := by
  induction a generalizing b with
  | nil => simp [weightedSum]
  | cons x xs ih =>
    cases b with
    | nil => simp at h
    | cons y ys =>
      simp only [weightedSum, List.zipWith] at *
      rw [ih ys (by simpa using h)]
      norm_num

theorem weightedSum_zero (a b : List ℝ) (h : a.length = b.length) :
    weightedSum 0 a b = b := by
  induction a generalizing b with
  | nil => cases b with
    | nil => simp [weightedSum]
    | cons y ys => simp at h
  | cons x xs ih =>
    cases b with
    | nil => simp at h
    | cons y ys =>
      simp only [weightedSum, List.zipWith] at *
      rw [ih ys (by simpa using h)]
      norm_num

/-- C7 (counterexample): the claim fails on opposite unit vectors at
`w = 1/2` — the weighted combination is the zero vector, so the
"re-normalized" result `combined / ‖combined‖` is not a unit vector
(`nan` in the numpy code, the zero vector under the model's `x / 0 = 0`
convention). -/
theorem claim7_counterexample :
    sumSq [(1 : ℝ), 0] = 1 ∧ sumSq [(-1 : ℝ), 0] = 1
    ∧ (0 : ℝ) ≤ 1 / 2 ∧ (1 / 2 : ℝ) ≤ 1
    ∧ combine_embeddings [(1 : ℝ), 0] [(-1 : ℝ), 0] (1 / 2)
        = Except.ok [(0 : ℝ), 0]
    ∧ sumSq [(0 : ℝ), 0] ≠ 1 := by
  have hw : weightedSum (1 / 2) [(1 : ℝ), 0] [(-1 : ℝ), 0] = [0, 0] := by
    simp only [weightedSum, List.zipWith]
    norm_num
  refine ⟨by norm_num [sumSq_cons, sumSq_nil],
    by norm_num [sumSq_cons, sumSq_nil], by norm_num, by norm_num, ?_,
    by norm_num [sumSq_cons, sumSq_nil]⟩
  unfold combine_embeddings
  rw [if_pos (by norm_num), hw]
  unfold normalizeVec
  norm_num

/-- C7 (amended): for unit-norm vectors `a`, `b` of equal dimension `D`
and `w ∈ [0, 1]`, *provided the weighted combination is not the zero
vector*, `combine_embeddings` returns a unit-norm vector of length `D`;
at `w = 1` it returns `a` and at `w = 0` it returns `b` exactly; and for
every weight outside `[0, 1]` it raises `ValueError`. -/
theorem claim7_amended (a b : List ℝ) (D : ℕ) (w : ℝ)
    (ha : sumSq a = 1) (hb : sumSq b = 1)
    (hal : a.length = D) (hbl : b.length = D)
    (hw0 : 0 ≤ w) (hw1 : w ≤ 1)
    (hnz : sumSq (weightedSum w a b) ≠ 0) :
    (combine_embeddings a b w
        = Except.ok (normalizeVec (weightedSum w a b))
      ∧ (normalizeVec (weightedSum w a b)).length = D
      ∧ sumSq (normalizeVec (weightedSum w a b)) = 1)
    ∧ combine_embeddings a b 1 = Except.ok a
    ∧ combine_embeddings a b 0 = Except.ok b
    ∧ ∀ w' : ℝ, w' < 0 ∨ 1 < w' →
        combine_embeddings a b w'
          = Except.error "text_weight must be between 0 and 1" := by
  refine ⟨⟨?_, ?_, sumSq_normalizeVec _ hnz⟩, ?_, ?_, ?_⟩
  · unfold combine_embeddings
    rw [if_pos ⟨hw0, hw1⟩]
  · unfold normalizeVec weightedSum
    rw [List.length_map, List.length_zipWith, hal, hbl, min_self]
  · unfold combine_embeddings
    rw [if_pos (by norm_num),
      weightedSum_one a b (by rw [hal, hbl]), normalizeVec_of_unit a ha]
  · unfold combine_embeddings
    rw [if_pos (by norm_num),
      weightedSum_zero a b (by rw [hal, hbl]), normalizeVec_of_unit b hb]
  · intro w' hw'
    unfold combine_embeddings
    rw [if_neg (by rcases hw' with h | h <;> intro hcon <;>
      [exact absurd hcon.1 (not_le.mpr h); exact absurd hcon.2 (not_le.mpr h)])]

/-- C7 (witness): the amended theorem at `a = [1,0]`, `b = [0,1]`,
`w = 1/2`. -/
theorem claim7_witness :
    (combine_embeddings [(1 : ℝ), 0] [(0 : ℝ), 1] (1 / 2)
        = Except.ok (normalizeVec (weightedSum (1 / 2) [(1 : ℝ), 0] [(0 : ℝ), 1]))
      ∧ (normalizeVec (weightedSum (1 / 2) [(1 : ℝ), 0] [(0 : ℝ), 1])).length = 2
      ∧ sumSq (normalizeVec (weightedSum (1 / 2) [(1 : ℝ), 0] [(0 : ℝ), 1])) = 1)
    ∧ combine_embeddings [(1 : ℝ), 0] [(0 : ℝ), 1] 1 = Except.ok [(1 : ℝ), 0]
    ∧ combine_embeddings [(1 : ℝ), 0] [(0 : ℝ), 1] 0 = Except.ok [(0 : ℝ), 1]
    ∧ ∀ w' : ℝ, w' < 0 ∨ 1 < w' →
        combine_embeddings [(1 : ℝ), 0] [(0 : ℝ), 1] w'
          = Except.error "text_weight must be between 0 and 1" :=
  claim7_amended [(1 : ℝ), 0] [(0 : ℝ), 1] 2 (1 / 2)
    (by norm_num [sumSq_cons, sumSq_nil])
    (by norm_num [sumSq_cons, sumSq_nil]) rfl rfl (by norm_num) (by norm_num)
    (by simp only [weightedSum, List.zipWith]
        norm_num [sumSq_cons, sumSq_nil])

/-! ## C4: idempotence of image-key canonicalization -/

theorem mem_of_mem_squeezeAux {p : Char → Bool} {r c : Char} :
    ∀ {l : List Char} {b : Bool}, c ∈ squeezeAux p r b l → c ∈ l ∨ c = r := by
  intro l
  induction l with
  | nil => intro b h; cases h
  | cons x xs ih =>
    intro b h
    by_cases hx : p x
    · cases b with
      | true =>
        rw [squeezeAux, if_pos hx, if_pos rfl] at h
        rcases ih h with h' | h'
        · exact Or.inl (List.mem_cons_of_mem x h')
        · exact Or.inr h'
      | false =>
        rw [squeezeAux, if_pos hx, if_neg (by simp)] at h
        rcases List.mem_cons.1 h with h' | h'
        · exact Or.inr h'
        · rcases ih h' with h'' | h''
          · exact Or.inl (List.mem_cons_of_mem x h'')
          · exact Or.inr h''
    · rw [squeezeAux, if_neg hx] at h
      rcases List.mem_cons.1 h with h' | h'
      · exact Or.inl (h' ▸ List.mem_cons_self x xs)
      · rcases ih h' with h'' | h''
        · exact Or.inl (List.mem_cons_of_mem x h'')
        · exact Or.inr h''

theorem squeezeAux_squeezeAux {p : Char → Bool} {r : Char} (hr : p r = true) :
    ∀ (l : List Char) (b : Bool),
      squeezeAux p r b (squeezeAux p r b l) = squeezeAux p r b l := by
  intro l
  induction l with
  | nil => intro b; rfl
  | cons x xs ih =>
    intro b
    by_cases hx : p x
    · cases b with
      | true =>
        rw [squeezeAux, if_pos hx, if_pos rfl]
        exact ih true
      | false =>
        rw [squeezeAux, if_pos hx, if_neg (by simp)]
        rw [squeezeAux, if_pos hr, if_neg (by simp), ih true]
    · rw [squeezeAux, if_neg hx]
      conv_lhs => rw [squeezeAux, if_neg hx]
      rw [ih false]

theorem squeezeAux_getLast? {p : Char → Bool} (r : Char) {c : Char}
    (hc : p c = false) :
    ∀ (l : List Char) (b : Bool), l.getLast? = some c →
      (squeezeAux p r b l).getLast? = some c := by
  intro l
  induction l with
  | nil => intro b h; cases h
  | cons x xs ih =>
    intro b h
    cases xs with
    | nil =>
      simp only [List.getLast?_singleton, Option.some.injEq] at h
      subst h
      have hx : ¬ p x = true := by simp [hc]
      cases b <;> rw [squeezeAux, if_neg hx] <;> rfl
    | cons y ys =>
      rw [List.getLast?_cons_cons] at h
      have htail : ∀ b', (squeezeAux p r b' (y :: ys)).getLast? = some c :=
        fun b' => ih b' h
      have hne : ∀ b', squeezeAux p r b' (y :: ys) ≠ [] := by
        intro b' he
        have hx := htail b'
        rw [he] at hx
        cases hx
      by_cases hx : p x
      · cases b with
        | true =>
          rw [squeezeAux, if_pos hx, if_pos rfl]
          exact htail true
        | false =>
          rw [squeezeAux, if_pos hx, if_neg (by simp)]
          cases hsq : squeezeAux p r true (y :: ys) with
          | nil => exact absurd hsq (hne true)
          | cons z zs =>
            rw [List.getLast?_cons_cons, ← hsq]
            exact htail true
      · rw [squeezeAux, if_neg hx]
        cases hsq : squeezeAux p r false (y :: ys) with
        | nil => exact absurd hsq (hne false)
        | cons z zs =>
          rw [List.getLast?_cons_cons, ← hsq]
          exact htail false

/-- The first character of `dropWhile p l` never satisfies `p`. -/
theorem head_not_of_dropWhile_eq {p : Char → Bool} {l : List Char}
    {c : Char} {cs : List Char} (h : List.dropWhile p l = c :: cs) :
    p c = false := by
  by_contra hx
  have hc : p c = true := by simpa using hx
  have h2 := List.dropWhile_idempotent p l
  rw [h, List.dropWhile_cons, if_pos hc] at h2
  have hlen := congrArg List.length h2
  have hle := (List.dropWhile_suffix p : List.dropWhile p cs <:+ cs).length_le
  simp only [List.length_cons] at hlen
  omega

/-- `squeeze` preserves "no leading `p`-character". -/
theorem dropWhile_squeeze {p : Char → Bool} {r : Char} {l : List Char}
    (h : List.dropWhile p l = l) :
    List.dropWhile p (squeeze p r l) = squeeze p r l := by
  cases l with
  | nil => rfl
  | cons c cs =>
    have hc : p c = false := by
      by_contra hx
      have hc' : p c = true := by simpa using hx
      rw [List.dropWhile_cons, if_pos hc'] at h
      have hlen := congrArg List.length h
      have hle := (List.dropWhile_suffix p : List.dropWhile p cs <:+ cs).length_le
      simp only [List.length_cons] at hlen
      omega
    rw [squeeze, squeezeAux, if_neg (by simp [hc]), List.dropWhile_cons,
      if_neg (by simp [hc])]

/-- `squeeze` preserves "no trailing `p`-character". -/
theorem rdropWhile_squeeze {p : Char → Bool} {r : Char} {l : List Char}
    (h : List.rdropWhile p l = l) :
    List.rdropWhile p (squeeze p r l) = squeeze p r l := by
  rw [List.rdropWhile_eq_self_iff] at h ⊢
  intro hl
  have hlne : l ≠ [] := by
    intro he
    subst he
    exact hl rfl
  have hlast := h hlne
  have hlast' : p (l.getLast hlne) = false := by simpa using hlast
  have h? : l.getLast? = some (l.getLast hlne) := List.getLast?_eq_getLast l hlne
  have hq : (squeeze p r l).getLast? = some (l.getLast hlne) :=
    squeezeAux_getLast? r hlast' l false h?
  have heq : (squeeze p r l).getLast hl = l.getLast hlne := by
    rw [List.getLast?_eq_getLast _ hl] at hq
    injection hq
  rw [heq]
  simp [hlast']

/-- The two halves of Python `strip` are separately idempotent on its
output. -/
theorem dropWhile_stripL (p : Char → Bool) (l : List Char) :
    List.dropWhile (fun c => p c) (stripL p l) = stripL p l := by
  unfold stripL
  cases hs : List.rdropWhile (fun c => p c)
      (List.dropWhile (fun c => p c) l) with
  | nil => rfl
  | cons c cs =>
    have hpre := List.rdropWhile_prefix (fun c => p c)
      (List.dropWhile (fun c => p c) l)
    rw [hs] at hpre
    obtain ⟨t, ht⟩ := hpre
    have hd : List.dropWhile (fun c => p c) l = c :: (cs ++ t) := by
      rw [← ht]
      rfl
    have hc := head_not_of_dropWhile_eq hd
    rw [List.dropWhile_cons, if_neg (by simp [hc])]

theorem rdropWhile_stripL (p : Char → Bool) (l : List Char) :
    List.rdropWhile (fun c => p c) (stripL p l) = stripL p l := by
  unfold stripL
  exact List.rdropWhile_idempotent _ _

theorem stripL_eq_self_of (p : Char → Bool) (l : List Char)
    (h : ∀ c ∈ l, p c = false) : stripL p l = l := by
  unfold stripL
  have hd : List.dropWhile (fun c => p c) l = l := by
    cases l with
    | nil => rfl
    | cons c cs =>
      rw [List.dropWhile_cons,
        if_neg (by simp [h c (List.mem_cons_self c cs)])]
  rw [hd, List.rdropWhile_eq_self_iff]
  intro hl
  simp [h _ (List.getLast_mem hl)]

theorem mem_of_mem_stripL {p : Char → Bool} {l : List Char} {c : Char}
    (h : c ∈ stripL p l) : c ∈ l := by
  unfold stripL at h
  exact (List.dropWhile_suffix (fun c => p c)).subset
    ((List.rdropWhile_prefix (fun c => p c) _).subset h)

/-- C4 (counterexample): canonicalization is not idempotent — on the key
`\a\` the first pass turns the backslashes into slashes after the
slash-stripping step, leaving `/a/`, and a second pass strips them to
`a`. -/
theorem claim4_counterexample :
    normalizeObjectKey (normalizeObjectKey "\\a\\")
      ≠ normalizeObjectKey "\\a\\"
    ∧ normalizeObjectKey "\\a\\" = "/a/"
    ∧ normalizeObjectKey (normalizeObjectKey "\\a\\") = "a" := by decide

/-- C4 (amended): canonicalization is idempotent on every key made of
ASCII characters containing no whitespace and no backslash — on such keys
the first pass already yields a fixed point of the normalization. -/
theorem claim4_amended (l : List Char)
    (h : ∀ c ∈ l, c.toNat < 128 ∧ isPySpace c = false ∧ c ≠ '\\') :
    normalizeObjectKeyL (normalizeObjectKeyL l) = normalizeObjectKeyL l := by
  have hslash : (fun c : Char => decide (c = '/')) '/' = true := by decide
  -- First pass: the whitespace strip and the backslash replacement are
  -- the identity.
  have hws : stripL isPySpace l = l :=
    stripL_eq_self_of _ _ (fun c hc => (h c hc).2.1)
  have hmap : (stripL (fun c => c = '/') l).map
      (fun c => if c = '\\' then '/' else c) = stripL (fun c => c = '/') l := by
    have hid : (stripL (fun c => c = '/') l).map
        (fun c => if c = '\\' then '/' else c)
        = (stripL (fun c => c = '/') l).map id :=
      List.map_congr_left (fun c hc => by
        simp [(h c (mem_of_mem_stripL hc)).2.2])
    rw [hid, List.map_id]
  have hq : normalizeObjectKeyL l
      = squeeze (fun c => c = '/') '/' (stripL (fun c => c = '/') l) := by
    unfold normalizeObjectKeyL
    rw [hws, hmap]
  -- Characters of the first pass's output.
  have hqmem : ∀ c ∈ normalizeObjectKeyL l,
      isPySpace c = false ∧ c ≠ '\\' := by
    intro c hc
    rw [hq] at hc
    rcases mem_of_mem_squeezeAux hc with hc' | hc'
    · exact ⟨(h c (mem_of_mem_stripL hc')).2.1, (h c (mem_of_mem_stripL hc')).2.2⟩
    · subst hc'
      exact ⟨by decide, by decide⟩
  -- Second pass: every stage fixes the output of the first.
  have hws2 : stripL isPySpace (normalizeObjectKeyL l) = normalizeObjectKeyL l :=
    stripL_eq_self_of _ _ (fun c hc => (hqmem c hc).1)
  have hstrip2 : stripL (fun c => c = '/') (normalizeObjectKeyL l)
      = normalizeObjectKeyL l := by
    unfold stripL
    rw [hq, dropWhile_squeeze (dropWhile_stripL _ l),
      rdropWhile_squeeze (rdropWhile_stripL _ l)]
  have hmap2 : (normalizeObjectKeyL l).map
      (fun c => if c = '\\' then '/' else c) = normalizeObjectKeyL l := by
    have hid : (normalizeObjectKeyL l).map
        (fun c => if c = '\\' then '/' else c)
        = (normalizeObjectKeyL l).map id :=
      List.map_congr_left (fun c hc => by simp [(hqmem c hc).2])
    rw [hid, List.map_id]
  calc normalizeObjectKeyL (normalizeObjectKeyL l)
      = squeeze (fun c => c = '/') '/'
          ((stripL (fun c => c = '/')
            (stripL isPySpace (normalizeObjectKeyL l))).map
              (fun c => if c = '\\' then '/' else c)) := rfl
    _ = squeeze (fun c => c = '/') '/'
          ((stripL (fun c => c = '/') (normalizeObjectKeyL l)).map
            (fun c => if c = '\\' then '/' else c)) := by rw [hws2]
    _ = squeeze (fun c => c = '/') '/'
          ((normalizeObjectKeyL l).map
            (fun c => if c = '\\' then '/' else c)) := by rw [hstrip2]
    _ = squeeze (fun c => c = '/') '/' (normalizeObjectKeyL l) := by rw [hmap2]
    _ = normalizeObjectKeyL l := by
          rw [hq]
          exact squeezeAux_squeezeAux hslash _ false

/-- C4 (witness): idempotence on a concrete slash-laden ASCII key. -/
theorem claim4_witness :
    normalizeObjectKeyL (normalizeObjectKeyL "a//b/c/".data)
      = normalizeObjectKeyL "a//b/c/".data :=
  claim4_amended "a//b/c/".data (by decide)

end ClipService
